import Mathlib

/-!
# tcp_lb: round-robin TCP load balancer

A shallow embedding of `src/tcp_lb.cpp`: the `Nodes` rotation, the two relay
loops of a `Connection`, `Connection::close`, and the acceptor loop of `main`.

The transport (`TCPSocket`, `TCPServer`) belongs to the elle library and is
driven here by scripts: each socket carries the outcomes its successive
`read_some` and `write` calls will have, and the acceptor is fed the outcomes
of its successive `accept` and `connect` calls.
-/

/-! ## Nodes -/

/-- A backend address, `struct Node`. -/
structure Node where
  host : String
  port : String
  deriving DecidableEq, Repr

/-- The rotation, `class Nodes`: the vector `nodes` and the iterator `iter`,
kept as its offset from `nodes.cbegin()`; `nodes.cend()` is the offset
`nodes.length`. -/
structure Nodes where
  nodes : List Node
  iter : Nat
  deriving DecidableEq, Repr

/-- The constructor `Nodes::Nodes`: copies the list, asserts that it is not
empty, and parks `iter` on `cend()`. `none` is the failed assertion, which
aborts the program (`assert` as compiled without `NDEBUG`). -/
def Nodes.construct (nodes : List Node) : Option Nodes :=
  if ¬ nodes.isEmpty then
    some { nodes := nodes, iter := nodes.length }
  else
    none

/-- The method `Nodes::next`: the node under `iter`, or, when `iter` is on
`cend()`, the first node after moving `iter` back to `cbegin()`; then `++iter`.
`none` is a dereference outside the vector. -/
def Nodes.next (self : Nodes) : Option (Node × Nodes) :=
  let it := if self.iter ≠ self.nodes.length then self.iter else 0
  match self.nodes[it]? with
  | some node => some (node, { self with iter := it + 1 })
  | none => none

/-- The results of `k` consecutive calls of `next`, oldest first, and the
state they leave. -/
def Nodes.calls (self : Nodes) : Nat → Option (List Node × Nodes)
  | 0 => some ([], self)
  | k + 1 =>
    match self.next with
    | none => none
    | some (node, self1) =>
      match Nodes.calls self1 k with
      | none => none
      | some (rest, self2) => some (node :: rest, self2)

/-- The states a `Nodes` built from `l` can be in: the one the constructor
leaves, and any state a call of `next` leaves from such a state. -/
inductive Nodes.Reachable (l : List Node) : Nodes → Prop
  | ctor (s : Nodes) : Nodes.construct l = some s → Nodes.Reachable l s
  | next (s s1 : Nodes) (n : Node) :
      Nodes.Reachable l s → s.next = some (n, s1) → Nodes.Reachable l s1

/-- The configuration of `main`: the two nodes `localhost:8090` and
`localhost:8091`, in this order. -/
def mainNodes : List Node :=
  [{ host := "localhost", port := "8090" }, { host := "localhost", port := "8091" }]

/-! ## Transport -/

/-- Exceptions. The program names one class, `ConnectionClosed` of
`elle::reactor::network`; `Other` stands for every exception that is not a
`ConnectionClosed` (connection refused, time out, resolution error, ...). -/
inductive Exn where
  | ConnectionClosed
  | Other (code : Nat)
  deriving DecidableEq, Repr

/-- The result of a call that either returns or throws. -/
inductive Outcome (α : Type) where
  | ok (a : α)
  | raise (e : Exn)
  deriving DecidableEq, Repr

/-- The payload of one `read_some`, as a list of bytes. -/
abbrev Buffer := List Nat

/-- A socket address, `Socket::EndPoint`. -/
structure EndPoint where
  host : String
  port : String
  deriving DecidableEq, Repr

/-- What the network will do on one socket: `rx` lists the outcomes of the
successive `read_some` calls (each returned buffer is what the call returns,
at most the requested size), `tx` the outcomes of the successive `write`
calls (`none`: the call returns). A `read_some` past the end of `rx` never
returns; a `write` past the end of `tx` returns. -/
structure Wire where
  rx : List (Outcome Buffer)
  tx : List (Option Exn)
  deriving DecidableEq, Repr

/-- A `TCPSocket`: its peer, its scripted future, and `sent`, the payloads of
the `write` calls that have returned, oldest first. -/
structure Socket extends Wire where
  peer : EndPoint
  sent : List Buffer
  deriving DecidableEq, Repr

/-- The call `read_some(size)`: the next scripted outcome; `none` when the
script is over, that is the caller stays suspended in the call. -/
def Socket.read_some (self : Socket) (_size : Nat) : Option (Outcome Buffer × Socket) :=
  match self.rx with
  | [] => none
  | r :: rx => some (r, { self with rx := rx })

/-- The call `write(payload)`: throws when the script says so, otherwise the
payload is on its way to the peer. -/
def Socket.write (self : Socket) (payload : Buffer) : Outcome Unit × Socket :=
  match self.tx with
  | some e :: tx => (.raise e, { self with tx := tx })
  | none :: tx => (.ok (), { self with tx := tx, sent := self.sent ++ [payload] })
  | [] => (.ok (), { self with sent := self.sent ++ [payload] })

/-- The member `Node::connect`: a new `TCPSocket(host, port)`. The argument is
what the network answers to the connection attempt. -/
def Node.connect (self : Node) (dial : Outcome Wire) : Outcome Socket :=
  match dial with
  | .ok w => .ok { toWire := w, peer := { host := self.host, port := self.port }, sent := [] }
  | .raise e => .raise e

/-! ## Connection -/

/-- The two sockets of `struct Connection`. The member `collection` is a
reference to the acceptor's map and is passed to the functions that use it. -/
structure Connection where
  outside : Socket
  inside : Socket
  deriving DecidableEq, Repr

/-- The map `Connection::Collection`, from end point to owning pointer
(`none` is `nullptr`), as an association list. New keys go to the end; the
order is not observable through `find`, `subscript`, `assign` and `emplace`. -/
abbrev Connection.Collection := List (EndPoint × Option Connection)

/-- Look up a key: `none` when the key is absent, `some none` when it is
present with a null pointer. -/
def Connection.Collection.find : Connection.Collection → EndPoint → Option (Option Connection)
  | [], _ => none
  | (k1, v) :: m, k => if k1 = k then some v else Connection.Collection.find m k

/-- The map after `operator[]` has located `k`: an absent key is inserted
with a value-initialised (null) pointer. -/
def Connection.Collection.subscript (m : Connection.Collection) (k : EndPoint) :
    Connection.Collection :=
  if (m.find k).isSome then m else m ++ [(k, none)]

/-- Assignment through the reference `operator[]` returned. -/
def Connection.Collection.assign :
    Connection.Collection → EndPoint → Option Connection → Connection.Collection
  | [], _, _ => []
  | (k1, v1) :: m, k, v =>
    if k1 = k then (k1, v) :: m else (k1, v1) :: Connection.Collection.assign m k v

/-- The call `emplace(k, v)` of `std::map`: inserts only when the key is
absent; the flag is the `bool` of the returned pair. -/
def Connection.Collection.emplace (m : Connection.Collection) (k : EndPoint)
    (v : Option Connection) : Connection.Collection × Bool :=
  if (m.find k).isSome then (m, false) else (m ++ [(k, v)], true)

/-- Removal of a key as the specification words it for the registry
(`remove(id)`: the entry is removed; an absent identity is a no-op). The
program never erases a key; this is the reference `close` is compared with. -/
def Connection.Collection.specRemove (m : Connection.Collection) (k : EndPoint) :
    Connection.Collection :=
  m.filter (fun kv => kv.1 ≠ k)

/-- The member `Connection::id`: the peer of the outside socket. -/
def Connection.id (self : Connection) : EndPoint :=
  self.outside.peer

/-- The member `Connection::close`, `collection[id()] = nullptr`, as what one
call made on a live object does to the map. What the call does to the object
itself is in `Connection.closeThis`. -/
def Connection.close (self : Connection) (collection : Connection.Collection) :
    Connection.Collection :=
  (collection.subscript self.id).assign self.id none

/-- The call `this->close()` with the lifetime of `*this`. The first argument
is the object as a relay thread holds it through `this`: its fields while it
is alive, `none` once it has been destroyed. The map owns every registered
pipe through its `unique_ptr`, and a pipe is registered under its own `id()`,
so storing `nullptr` under `id()` destroys the pipe the entry held, which is
`*this`. A call on a destroyed object reads freed storage (`id()` goes through
`this->outside`): `none`. The result is the map and what is left of `*this`. -/
def Connection.closeThis (this : Option Connection) (collection : Connection.Collection) :
    Option (Connection.Collection × Option Connection) :=
  match this with
  | none => none
  | some self =>
    match collection.find self.id with
    | some (some _) => some (self.close collection, none)
    | _ => some (self.close collection, some self)

/-- Two calls of `this->close()` on the same object, one after the other, as
the two relay threads of one pipe would make them. -/
def Connection.closeTwice (this : Option Connection) (collection : Connection.Collection) :
    Option (Connection.Collection × Option Connection) :=
  match Connection.closeThis this collection with
  | none => none
  | some (collection1, this1) => Connection.closeThis this1 collection1

/-- How a run over a finite script ends: still suspended in a call that has
not returned, or left by an exception. -/
inductive Ended where
  | suspended
  | raised (e : Exn)
  deriving DecidableEq, Repr

/-- The loop of both relay threads,
`while (true) { auto payload = src->read_some(4096); dst->write(payload); }`. -/
def relay (src dst : Socket) : Ended × Socket × Socket :=
  match h : src.read_some 4096 with
  | none => (.suspended, src, dst)
  | some (.raise e, src1) => (.raised e, src1, dst)
  | some (.ok payload, src1) =>
    match dst.write payload with
    | (.raise e, dst1) => (.raised e, src1, dst1)
    | (.ok _, dst1) => relay src1 dst1
termination_by src.rx.length
decreasing_by
  simp only [Socket.read_some] at h
  split at h
  · simp at h
  · rename_i r rx hrx
    simp only [Option.some.injEq, Prod.mk.injEq] at h
    rw [← h.2, hrx]
    simp

/-- What a relay thread leaves behind: the connection, the map it holds a
reference to, the standard output, and how the thread ended. -/
structure Relayed where
  conn : Connection
  collection : Connection.Collection
  cout : List String
  ended : Ended
  deriving DecidableEq, Repr

/-- The thread `out_to_in`: relays from `outside` to `inside`; a
`ConnectionClosed` is reported on the standard output and thrown again. The
call of `close` after the handler is commented out in the source. -/
def Connection.out_to_in (self : Connection) (collection : Connection.Collection)
    (cout : List String) : Relayed :=
  match relay self.outside self.inside with
  | (.raised .ConnectionClosed, outside, inside) =>
    { conn := { outside := outside, inside := inside }, collection := collection,
      cout := cout ++ ["Connection closed in client_out"],
      ended := .raised .ConnectionClosed }
  | (ended, outside, inside) =>
    { conn := { outside := outside, inside := inside }, collection := collection,
      cout := cout, ended := ended }

/-- The thread `in_to_out`: relays from `inside` to `outside`; a
`ConnectionClosed` is reported on the standard output and thrown again. The
call of `close` after the handler is commented out in the source. -/
def Connection.in_to_out (self : Connection) (collection : Connection.Collection)
    (cout : List String) : Relayed :=
  match relay self.inside self.outside with
  | (.raised .ConnectionClosed, inside, outside) =>
    { conn := { outside := outside, inside := inside }, collection := collection,
      cout := cout ++ ["Connection closed in client_in"],
      ended := .raised .ConnectionClosed }
  | (ended, inside, outside) =>
    { conn := { outside := outside, inside := inside }, collection := collection,
      cout := cout, ended := ended }

/-! ## The acceptor loop of `main` -/

/-- The state of the acceptor coroutine: the rotation, the map
`connections`, the standard output, and `launched`, the connections
constructed so far (each construction starts the two relay threads), oldest
first. -/
structure Acceptor where
  nodes : Nodes
  connections : Connection.Collection
  launched : List Connection
  cout : List String
  deriving DecidableEq, Repr

/-- What the network does during one turn of the loop: `server.accept()`
throws, or it returns a client socket and the connection attempt to the
selected node is answered by `dial`. -/
inductive Event where
  | acceptRaises (e : Exn)
  | client (outside : Socket) (dial : Outcome Wire)
  deriving DecidableEq, Repr

/-- The `try` block of the loop: accept, `nodes.next().connect()`, construct
the `Connection`, `connections.emplace(conn->id(), std::move(conn))` with the
returned pair dropped. The second component is the exception that leaves the
block, if any; `none` as a whole is a dereference outside `nodes`. -/
def acceptorTry (st : Acceptor) : Event → Option (Acceptor × Option Exn)
  | .acceptRaises e => some (st, some e)
  | .client outside dial =>
    match st.nodes.next with
    | none => none
    | some (node, nodes) =>
      match node.connect dial with
      | .raise e => some ({ st with nodes := nodes }, some e)
      | .ok inside =>
        let conn : Connection := { outside := outside, inside := inside }
        some ({ st with
                nodes := nodes,
                launched := st.launched ++ [conn],
                connections := (st.connections.emplace conn.id (some conn)).1 }, none)

/-- One turn of `while (true)`: the `try` block and its handler, which
catches `ConnectionClosed` only, prints and goes on. The second component is
the exception that leaves the loop, if any. -/
def acceptorTurn (st : Acceptor) (ev : Event) : Option (Acceptor × Option Exn) :=
  match acceptorTry st ev with
  | none => none
  | some (st1, none) => some (st1, none)
  | some (st1, some .ConnectionClosed) =>
    some ({ st1 with cout := st1.cout ++ ["Connection closed"] }, none)
  | some (st1, some e) => some (st1, some e)

/-- The loop over a finite script of events: it ends suspended in
`server.accept()` when the script is over, or is left by the first exception
the handler does not catch. -/
def acceptorLoop (st : Acceptor) : List Event → Option (Acceptor × Ended)
  | [] => some (st, .suspended)
  | ev :: evs =>
    match acceptorTurn st ev with
    | none => none
    | some (st1, none) => acceptorLoop st1 evs
    | some (st1, some e) => some (st1, .raised e)

/-- The acceptor as `main` starts it: the given rotation, an empty map. -/
def acceptorStart (nodes : Nodes) : Acceptor :=
  { nodes := nodes, connections := [], launched := [], cout := [] }

/-- The script under which `cs` is the sequence of buffers that the
successive `read_some` calls on `src` return before the first failing read or
write of a relay from `src` to `dst`: the reads return `cs` in order, the
writes of these buffers to `dst` return, and then either nothing more happens
on `src`, or the next read throws, or the next read returns a buffer whose
write throws. -/
def Relays (src dst : Socket) (cs : List Buffer) : Prop :=
  ∃ rest, src.rx = cs.map Outcome.ok ++ rest ∧
    (∀ i, i < cs.length → dst.tx[i]? = some none ∨ dst.tx[i]? = none) ∧
    (rest = [] ∨ (∃ e r, rest = Outcome.raise e :: r) ∨
      (∃ c r e, rest = Outcome.ok c :: r ∧ dst.tx[cs.length]? = some (some e)))

/-- The script under which `cs` is the sequence of buffers that the
successive `read_some` calls on `src` return before the first failing call of a
relay from `src` to `dst`, the buffer of a read that returned just before a
failing write included: the reads return `cs` in order, and either the writes
of all of them return and then nothing more happens on `src` or the next read
throws, or the writes of all but the last return and the write of the last
throws. -/
def ReadBeforeFailure (src dst : Socket) (cs : List Buffer) : Prop :=
  ∃ rest, src.rx = cs.map Outcome.ok ++ rest ∧
    (((∀ i, i < cs.length → dst.tx[i]? = some none ∨ dst.tx[i]? = none) ∧
        (rest = [] ∨ (∃ e r, rest = Outcome.raise e :: r))) ∨
      (cs ≠ [] ∧
        (∀ i, i + 1 < cs.length → dst.tx[i]? = some none ∨ dst.tx[i]? = none) ∧
        (∃ e, dst.tx[cs.length - 1]? = some (some e))))

/-! ## Sample data -/

/-- The first node of `main`. -/
def nodeB1 : Node := { host := "localhost", port := "8090" }

/-- The second node of `main`. -/
def nodeB2 : Node := { host := "localhost", port := "8091" }

/-- The rotation of `main` as its constructor leaves it. -/
def mainRotation : Nodes := { nodes := mainNodes, iter := 2 }

/-- The rotation of `main` after one call of `next`. -/
def mainRotation1 : Nodes := { nodes := mainNodes, iter := 1 }

/-- A socket on which nothing happens. -/
def idleWire : Wire := { rx := [], tx := [] }

/-- A first client: sends two buffers, then closes. Its second write fails. -/
def clientC1 : Socket :=
  { peer := { host := "10.0.0.1", port := "50001" },
    rx := [.ok [104, 105], .ok [33], .raise .ConnectionClosed],
    tx := [none, some (.Other 32)],
    sent := [] }

/-- A second client, idle. -/
def clientC2 : Socket :=
  { peer := { host := "10.0.0.2", port := "50002" }, rx := [], tx := [], sent := [] }

/-- A third client, idle. -/
def clientC3 : Socket :=
  { peer := { host := "10.0.0.3", port := "50003" }, rx := [], tx := [], sent := [] }

/-- A socket to the first node that answers with three buffers. -/
def backendB1 : Socket :=
  { peer := { host := "localhost", port := "8090" },
    rx := [.ok [111, 107], .ok [1], .ok [2]],
    tx := [],
    sent := [] }

/-- The first client paired with the first node. -/
def connC1 : Connection := { outside := clientC1, inside := backendB1 }

/-- The same connection later on: both sockets have moved on. -/
def connC1Later : Connection :=
  { outside := { clientC1 with rx := [.raise .ConnectionClosed], tx := [some (.Other 32)] },
    inside := { backendB1 with rx := [.ok [1], .ok [2]], sent := [[104, 105]] } }

/-- A connection whose client has closed: the first read on `outside` throws
`ConnectionClosed`. -/
def closedConn : Connection :=
  { outside := { peer := { host := "10.0.0.1", port := "50001" },
                 rx := [.raise .ConnectionClosed], tx := [], sent := [] },
    inside := { peer := { host := "localhost", port := "8090" },
                rx := [], tx := [], sent := [] } }

/-- An acceptor that already holds an entry for the end point of `clientC1`. -/
def busyAcceptor : Acceptor :=
  { nodes := mainRotation1,
    connections := [(clientC1.peer, some connC1)],
    launched := [connC1],
    cout := [] }

/-! ## Lemmas on the rotation -/

theorem Nodes.construct_eq (l : List Node) (hl : l ≠ []) :
    Nodes.construct l = some { nodes := l, iter := l.length } := by
  cases l with
  | nil => exact absurd rfl hl
  | cons a t => simp [Nodes.construct]

theorem Nodes.next_eq (l : List Node) (i : Nat) (hl : l ≠ []) (hi : i ≤ l.length) :
    ∃ n, l[i % l.length]? = some n ∧
      Nodes.next { nodes := l, iter := i } = some (n, { nodes := l, iter := i % l.length + 1 }) := by
  have hpos : 0 < l.length := List.length_pos.mpr hl
  have hlt : i % l.length < l.length := Nat.mod_lt _ hpos
  refine ⟨l[i % l.length], List.getElem?_eq_getElem hlt, ?_⟩
  by_cases h : i = l.length
  · subst h
    simp only [Nodes.next, ne_eq, not_true_eq_false, if_false, Nat.mod_self]
    rw [List.getElem?_eq_getElem hpos]
  · have hi2 : i < l.length := lt_of_le_of_ne hi h
    simp only [Nodes.next, ne_eq, h, not_false_eq_true, if_true, Nat.mod_eq_of_lt hi2]
    rw [List.getElem?_eq_getElem hi2]

theorem Nodes.calls_eq (l : List Node) (hl : l ≠ []) :
    ∀ (k i : Nat), i ≤ l.length →
      ∃ rs s1, Nodes.calls { nodes := l, iter := i } k = some (rs, s1) ∧ rs.length = k ∧
        (∀ j, j < k → ∃ n, rs[j]? = some n ∧ l[(i + j) % l.length]? = some n) ∧
        s1.nodes = l ∧ s1.iter ≤ l.length ∧ (0 < i ∨ 0 < k → 0 < s1.iter) := by
  have hpos : 0 < l.length := List.length_pos.mpr hl
  intro k
  induction k with
  | zero =>
    intro i hi
    refine ⟨[], _, rfl, rfl, ?_, rfl, hi, ?_⟩
    · intro j hj
      exact absurd hj (Nat.not_lt_zero _)
    · intro h
      rcases h with h | h
      · exact h
      · exact absurd h (Nat.lt_irrefl _)
  | succ k ih =>
    intro i hi
    obtain ⟨n, hn, hnext⟩ := Nodes.next_eq l i hl hi
    have hlt : i % l.length < l.length := Nat.mod_lt _ hpos
    obtain ⟨rs, s1, hcalls, hlen, hrs, hnodes, hiter, hpos1⟩ := ih (i % l.length + 1) hlt
    refine ⟨n :: rs, s1, ?_, by simp [hlen], ?_, hnodes, hiter, ?_⟩
    · simp only [Nodes.calls, hnext, hcalls]
    · intro j hj
      cases j with
      | zero => exact ⟨n, by simp, by simpa using hn⟩
      | succ j =>
        obtain ⟨m, hm1, hm2⟩ := hrs j (by omega)
        refine ⟨m, by simpa using hm1, ?_⟩
        have : (i + (j + 1)) % l.length = (i % l.length + 1 + j) % l.length := by
          rw [show i + (j + 1) = i + (1 + j) by omega, Nat.add_mod,
            show i % l.length + 1 + j = i % l.length + (1 + j) by omega]
          conv_rhs => rw [Nat.add_mod, Nat.mod_mod]
        rw [this]
        exact hm2
    · intro _
      exact hpos1 (Or.inl (Nat.succ_pos _))

theorem Nodes.reachable_inv (l : List Node) (s : Nodes) (h : Nodes.Reachable l s) :
    s.nodes = l ∧ l ≠ [] ∧ 0 < s.iter ∧ s.iter ≤ l.length := by
  induction h with
  | ctor s hs =>
    have hl : l ≠ [] := by
      intro h0
      subst h0
      simp [Nodes.construct] at hs
    rw [Nodes.construct_eq l hl] at hs
    cases hs
    exact ⟨rfl, hl, List.length_pos.mpr hl, le_refl _⟩
  | next s s1 n _ hnext ih =>
    obtain ⟨hnodes, hl, _, hle⟩ := ih
    obtain ⟨nodes, iter⟩ := s
    simp only at hnodes hle
    subst hnodes
    obtain ⟨m, _, hm⟩ := Nodes.next_eq nodes iter hl hle
    rw [hm] at hnext
    cases hnext
    exact ⟨rfl, hl, Nat.succ_pos _, Nat.mod_lt _ (List.length_pos.mpr hl)⟩

/-! ## Lemmas on the map -/

theorem Connection.Collection.find_append (m : Connection.Collection) (k k1 : EndPoint)
    (v : Option Connection) :
    Connection.Collection.find (m ++ [(k, v)]) k1 =
      match Connection.Collection.find m k1 with
      | some x => some x
      | none => if k = k1 then some v else none := by
  induction m with
  | nil => simp [Connection.Collection.find]
  | cons kv m ih =>
    obtain ⟨k2, v2⟩ := kv
    by_cases h : k2 = k1
    · simp [Connection.Collection.find, h]
    · simp [Connection.Collection.find, h, ih]

theorem Connection.Collection.find_assign_self (m : Connection.Collection) (k : EndPoint)
    (v : Option Connection) :
    Connection.Collection.find (Connection.Collection.assign m k v) k =
      (Connection.Collection.find m k).map (fun _ => v) := by
  induction m with
  | nil => simp [Connection.Collection.find, Connection.Collection.assign]
  | cons kv m ih =>
    obtain ⟨k2, v2⟩ := kv
    by_cases h : k2 = k
    · simp [Connection.Collection.find, Connection.Collection.assign, h]
    · simp [Connection.Collection.find, Connection.Collection.assign, h, ih]

theorem Connection.Collection.find_assign_other (m : Connection.Collection) (k k1 : EndPoint)
    (v : Option Connection) (hk : k1 ≠ k) :
    Connection.Collection.find (Connection.Collection.assign m k v) k1 =
      Connection.Collection.find m k1 := by
  induction m with
  | nil => simp [Connection.Collection.find, Connection.Collection.assign]
  | cons kv m ih =>
    obtain ⟨k2, v2⟩ := kv
    by_cases h : k2 = k
    · subst h
      have h2 : ¬ k2 = k1 := fun e => hk e.symm
      simp [Connection.Collection.find, Connection.Collection.assign, h2]
    · by_cases h3 : k2 = k1
      · subst h3
        simp [Connection.Collection.find, Connection.Collection.assign, h]
      · simp [Connection.Collection.find, Connection.Collection.assign, h, h3, ih]

theorem Connection.Collection.assign_assign (m : Connection.Collection) (k : EndPoint)
    (v : Option Connection) :
    Connection.Collection.assign (Connection.Collection.assign m k v) k v =
      Connection.Collection.assign m k v := by
  induction m with
  | nil => simp [Connection.Collection.assign]
  | cons kv m ih =>
    obtain ⟨k2, v2⟩ := kv
    by_cases h : k2 = k
    · simp [Connection.Collection.assign, h]
    · simp [Connection.Collection.assign, h, ih]

theorem Connection.Collection.find_subscript_self (m : Connection.Collection) (k : EndPoint) :
    (Connection.Collection.find (Connection.Collection.subscript m k) k).isSome = true := by
  unfold Connection.Collection.subscript
  by_cases h : (Connection.Collection.find m k).isSome = true
  · simp [h]
  · simp only [h, Bool.false_eq_true, if_false]
    rw [Connection.Collection.find_append]
    cases hf : Connection.Collection.find m k with
    | none => simp
    | some x => simp [hf] at h

theorem Connection.Collection.find_subscript_other (m : Connection.Collection)
    (k k1 : EndPoint) (hk : k1 ≠ k) :
    Connection.Collection.find (Connection.Collection.subscript m k) k1 =
      Connection.Collection.find m k1 := by
  unfold Connection.Collection.subscript
  by_cases h : (Connection.Collection.find m k).isSome = true
  · simp [h]
  · simp only [h, Bool.false_eq_true, if_false]
    rw [Connection.Collection.find_append]
    have h2 : ¬ k = k1 := fun e => hk e.symm
    cases hf : Connection.Collection.find m k1 with
    | none => simp [h2]
    | some x => simp

theorem Connection.Collection.find_specRemove (m : Connection.Collection) (k k1 : EndPoint) :
    Connection.Collection.find (Connection.Collection.specRemove m k) k1 =
      if k1 = k then none else Connection.Collection.find m k1 := by
  induction m with
  | nil => simp [Connection.Collection.find, Connection.Collection.specRemove]
  | cons kv m ih =>
    obtain ⟨k2, v2⟩ := kv
    unfold Connection.Collection.specRemove at ih ⊢
    by_cases h : k2 = k
    · subst h
      by_cases h3 : k1 = k2
      · subst h3
        simpa [List.filter, Connection.Collection.find] using ih
      · have h4 : ¬ k2 = k1 := fun e => h3 e.symm
        simpa [List.filter, Connection.Collection.find, h3, h4] using ih
    · by_cases h3 : k2 = k1
      · subst h3
        simp [List.filter, Connection.Collection.find, h]
      · simpa [List.filter, Connection.Collection.find, h, h3] using ih

theorem Connection.close_find_self (c : Connection) (m : Connection.Collection) :
    Connection.Collection.find (c.close m) c.id = some none := by
  unfold Connection.close
  rw [Connection.Collection.find_assign_self]
  have h := Connection.Collection.find_subscript_self m c.id
  cases hf : Connection.Collection.find (Connection.Collection.subscript m c.id) c.id with
  | none => simp [hf] at h
  | some x => simp

theorem Connection.close_find_other (c : Connection) (m : Connection.Collection)
    (k : EndPoint) (hk : k ≠ c.id) :
    Connection.Collection.find (c.close m) k = Connection.Collection.find m k := by
  unfold Connection.close
  rw [Connection.Collection.find_assign_other _ _ _ _ hk,
    Connection.Collection.find_subscript_other _ _ _ hk]

theorem Connection.close_close (c : Connection) (m : Connection.Collection) :
    c.close (c.close m) = c.close m := by
  have hfind := Connection.close_find_self c m
  have hsub : Connection.Collection.subscript (c.close m) c.id = c.close m := by
    unfold Connection.Collection.subscript
    simp [hfind]
  show Connection.Collection.assign (Connection.Collection.subscript (c.close m) c.id) c.id none
    = c.close m
  rw [hsub]
  unfold Connection.close
  exact Connection.Collection.assign_assign _ _ _

/-! ## Lemmas on the relay loop -/

theorem relay_nil (src dst : Socket) (h : src.rx = []) :
    relay src dst = (.suspended, src, dst) := by
  obtain ⟨⟨rx, tx⟩, peer, sent⟩ := src
  simp only at h
  subst h
  rw [relay]
  simp [Socket.read_some]

theorem relay_raise (src dst : Socket) (e : Exn) (r : List (Outcome Buffer))
    (h : src.rx = .raise e :: r) :
    relay src dst = (.raised e, { src with rx := r }, dst) := by
  obtain ⟨⟨rx, tx⟩, peer, sent⟩ := src
  simp only at h
  subst h
  rw [relay]
  simp [Socket.read_some]

theorem relay_ok (src dst : Socket) (c : Buffer) (r : List (Outcome Buffer))
    (h : src.rx = .ok c :: r) :
    relay src dst =
      match dst.write c with
      | (.raise e, dst1) => (.raised e, { src with rx := r }, dst1)
      | (.ok _, dst1) => relay { src with rx := r } dst1 := by
  obtain ⟨⟨rx, tx⟩, peer, sent⟩ := src
  simp only at h
  subst h
  rw [relay]
  simp [Socket.read_some]

theorem relay_chain (cs : List Buffer) :
    ∀ (src dst : Socket) (rest : List (Outcome Buffer)),
      src.rx = cs.map Outcome.ok ++ rest →
      (∀ i, i < cs.length → dst.tx[i]? = some none ∨ dst.tx[i]? = none) →
      relay src dst =
        relay { src with rx := rest }
          { dst with tx := dst.tx.drop cs.length, sent := dst.sent ++ cs } := by
  induction cs with
  | nil =>
    intro src dst rest hrx _
    obtain ⟨⟨rx, tx⟩, peer, sent⟩ := src
    obtain ⟨⟨rx2, tx2⟩, peer2, sent2⟩ := dst
    simp only [List.map_nil, List.nil_append] at hrx
    subst hrx
    simp
  | cons c cs ih =>
    intro src dst rest hrx htx
    have hrx1 : src.rx = Outcome.ok c :: (cs.map Outcome.ok ++ rest) := by
      simpa using hrx
    rw [relay_ok src dst c _ hrx1]
    obtain ⟨⟨rx2, tx2⟩, peer2, sent2⟩ := dst
    have h0 := htx 0 (Nat.succ_pos _)
    have hnext : ∀ i, i < cs.length → tx2[i + 1]? = some none ∨ tx2[i + 1]? = none := by
      intro i hi
      exact htx (i + 1) (by simpa using hi)
    cases tx2 with
    | nil =>
      simp only [Socket.write]
      rw [ih _ _ rest rfl (by intro i _; right; simp)]
      simp
    | cons t tx2 =>
      cases t with
      | some e => simp at h0
      | none =>
        simp only [Socket.write]
        rw [ih _ _ rest rfl (by intro i hi; simpa using hnext i hi)]
        simp

theorem relay_sent (src dst : Socket) (cs : List Buffer) (h : Relays src dst cs) :
    (relay src dst).2.2.sent = dst.sent ++ cs := by
  obtain ⟨rest, hrx, htx, hstop⟩ := h
  rw [relay_chain cs src dst rest hrx htx]
  rcases hstop with h1 | ⟨e, r, h2⟩ | ⟨c, r, e, h3, h4⟩
  · rw [relay_nil _ _ (by simpa using h1)]
  · rw [relay_raise _ _ e r (by simpa using h2)]
  · rw [relay_ok _ _ c r (by simpa using h3)]
    have hdrop : dst.tx.drop cs.length = some e :: dst.tx.drop (cs.length + 1) := by
      have hlt : cs.length < dst.tx.length := by
        by_contra hge
        rw [List.getElem?_eq_none (Nat.le_of_not_lt hge)] at h4
        exact absurd h4 (by simp)
      rw [List.getElem?_eq_getElem hlt] at h4
      rw [List.drop_eq_getElem_cons hlt]
      simp only [Option.some.injEq] at h4
      rw [h4]
    simp only [Socket.write, hdrop]

/-! ## Lemmas on the acceptor loop -/

theorem acceptorTurn_dialed (st : Acceptor) (l : List Node) (hl : l ≠ [])
    (hnodes : st.nodes.nodes = l) (hiter : st.nodes.iter ≤ l.length)
    (outside : Socket) (w : Wire) :
    ∃ n inside, l[st.nodes.iter % l.length]? = some n ∧
      n.connect (.ok w) = .ok inside ∧
      acceptorTurn st (.client outside (.ok w)) =
        some ({ st with
                nodes := { nodes := l, iter := st.nodes.iter % l.length + 1 },
                launched := st.launched ++ [{ outside := outside, inside := inside }],
                connections :=
                  (st.connections.emplace outside.peer
                    (some { outside := outside, inside := inside })).1 }, none) := by
  obtain ⟨⟨nodes, iter⟩, conns, launched, cout⟩ := st
  simp only at hnodes hiter
  subst hnodes
  obtain ⟨n, hn, hnext⟩ := Nodes.next_eq nodes iter hl hiter
  refine ⟨n, _, hn, rfl, ?_⟩
  simp [acceptorTurn, acceptorTry, hnext, Node.connect, Connection.id]

theorem acceptorTurn_dial_raises (st : Acceptor) (l : List Node) (hl : l ≠ [])
    (hnodes : st.nodes.nodes = l) (hiter : st.nodes.iter ≤ l.length)
    (outside : Socket) (e : Exn) :
    acceptorTry st (.client outside (.raise e)) =
      some ({ st with nodes := { nodes := l, iter := st.nodes.iter % l.length + 1 } },
        some e) := by
  obtain ⟨⟨nodes, iter⟩, conns, launched, cout⟩ := st
  simp only at hnodes hiter
  subst hnodes
  obtain ⟨n, hn, hnext⟩ := Nodes.next_eq nodes iter hl hiter
  simp [acceptorTry, hnext, Node.connect]

theorem acceptorLoop_clients (l : List Node) (hl : l ≠ []) (clients : List (Socket × Wire)) :
    ∀ (st : Acceptor), st.nodes.nodes = l → st.nodes.iter ≤ l.length →
      ∃ st1 news, acceptorLoop st (clients.map fun c => Event.client c.1 (Outcome.ok c.2)) =
          some (st1, .suspended) ∧
        st1.launched = st.launched ++ news ∧ news.length = clients.length ∧
        (∀ j, j < clients.length → ∃ c n conn, clients[j]? = some c ∧
          l[(st.nodes.iter + j) % l.length]? = some n ∧ news[j]? = some conn ∧
          conn.outside = c.1 ∧ n.connect (.ok c.2) = .ok conn.inside) ∧
        (∃ rs, st.nodes.calls clients.length = some (rs, st1.nodes)) ∧
        st1.cout = st.cout := by
  have hpos : 0 < l.length := List.length_pos.mpr hl
  induction clients with
  | nil =>
    intro st _ _
    refine ⟨st, [], rfl, by simp, rfl, ?_, ⟨[], rfl⟩, rfl⟩
    intro j hj
    exact absurd hj (Nat.not_lt_zero _)
  | cons c clients ih =>
    intro st hnodes hiter
    obtain ⟨n, inside, hn, hconn, hturn⟩ := acceptorTurn_dialed st l hl hnodes hiter c.1 c.2
    obtain ⟨n0, hn0, hnext⟩ := Nodes.next_eq l st.nodes.iter hl hiter
    have hst : st.nodes = { nodes := l, iter := st.nodes.iter } := by
      rw [← hnodes]
    obtain ⟨st1, news, hloop, hlaunched, hlen, hnews, ⟨rs, hcalls⟩, hcout⟩ :=
      ih _ (rfl : ({ st with
                nodes := { nodes := l, iter := st.nodes.iter % l.length + 1 },
                launched := st.launched ++ [{ outside := c.1, inside := inside }],
                connections :=
                  (st.connections.emplace c.1.peer
                    (some { outside := c.1, inside := inside })).1 } : Acceptor).nodes.nodes = l)
        (Nat.mod_lt _ hpos)
    refine ⟨st1, { outside := c.1, inside := inside } :: news, ?_, ?_, by simp [hlen], ?_,
      ⟨n0 :: rs, ?_⟩, hcout⟩
    · simp only [List.map_cons, acceptorLoop, hturn]
      exact hloop
    · rw [hlaunched]
      simp
    · intro j hj
      cases j with
      | zero =>
        exact ⟨c, n, { outside := c.1, inside := inside }, by simp, by simpa using hn, by simp,
          rfl, hconn⟩
      | succ j =>
        obtain ⟨c1, n1, conn1, h1, h2, h3, h4, h5⟩ := hnews j (by simpa using hj)
        refine ⟨c1, n1, conn1, by simpa using h1, ?_, by simpa using h3, h4, h5⟩
        have : (st.nodes.iter + (j + 1)) % l.length =
            (st.nodes.iter % l.length + 1 + j) % l.length := by
          rw [show st.nodes.iter + (j + 1) = st.nodes.iter + (1 + j) by omega, Nat.add_mod,
            show st.nodes.iter % l.length + 1 + j = st.nodes.iter % l.length + (1 + j) by omega]
          conv_rhs => rw [Nat.add_mod, Nat.mod_mod]
        rw [this]
        exact h2
    · rw [hst]
      simp only [Nodes.calls, hnext]
      simp only at hcalls
      rw [hcalls]

/-! ## The rotation: claims -/

/-- C1: on a rotation freshly constructed from a non-empty list `l` of `N`
nodes, `k` consecutive calls of `next` all return, and the `k`-th of them
(for `k ≥ 1`) returns `l[(k-1) mod N]`; `2N` consecutive calls return the
whole list in its original order, twice. -/
theorem Nodes.next_round_robin (l : List Node) (hl : l ≠ []) :
    ∃ s, Nodes.construct l = some s ∧
      (∀ k, 1 ≤ k → ∃ rs s1 n, s.calls k = some (rs, s1) ∧ rs.length = k ∧
        rs[k - 1]? = some n ∧ l[(k - 1) % l.length]? = some n) ∧
      (∃ s2, s.calls (2 * l.length) = some (l ++ l, s2)) := by
  refine ⟨_, Nodes.construct_eq l hl, ?_, ?_⟩
  · intro k hk
    obtain ⟨rs, s1, hcalls, hlen, hrs, _⟩ := Nodes.calls_eq l hl k l.length (le_refl _)
    obtain ⟨n, hn1, hn2⟩ := hrs (k - 1) (by omega)
    refine ⟨rs, s1, n, hcalls, hlen, hn1, ?_⟩
    rw [Nat.add_mod_left] at hn2
    exact hn2
  · obtain ⟨rs, s1, hcalls, hlen, hrs, _⟩ :=
      Nodes.calls_eq l hl (2 * l.length) l.length (le_refl _)
    refine ⟨s1, ?_⟩
    have hrsl : rs = l ++ l := by
      apply List.ext_getElem?
      intro j
      by_cases hj : j < 2 * l.length
      · obtain ⟨n, hn1, hn2⟩ := hrs j hj
        rw [Nat.add_mod_left] at hn2
        rw [hn1]
        by_cases hj2 : j < l.length
        · rw [List.getElem?_append_left hj2]
          rw [Nat.mod_eq_of_lt hj2] at hn2
          exact hn2.symm
        · have hge : l.length ≤ j := Nat.le_of_not_lt hj2
          rw [List.getElem?_append_right hge]
          have hmod : j % l.length = j - l.length := by
            rw [Nat.mod_eq_sub_mod hge, Nat.mod_eq_of_lt (by omega)]
          rw [hmod] at hn2
          exact hn2.symm
      · have h1 : rs.length ≤ j := by omega
        have h2 : (l ++ l).length ≤ j := by
          rw [List.length_append]
          omega
        rw [List.getElem?_eq_none h1, List.getElem?_eq_none h2]
    rw [hcalls, hrsl]

/-- Witness of C1 on the two nodes configured in `main`. -/
theorem Nodes.next_round_robin_witness :
    mainNodes ≠ [] ∧
    ∃ s, Nodes.construct mainNodes = some s ∧
      (∀ k, 1 ≤ k → ∃ rs s1 n, s.calls k = some (rs, s1) ∧ rs.length = k ∧
        rs[k - 1]? = some n ∧ mainNodes[(k - 1) % mainNodes.length]? = some n) ∧
      (∃ s2, s.calls (2 * mainNodes.length) = some (mainNodes ++ mainNodes, s2)) :=
  ⟨by decide, Nodes.next_round_robin mainNodes (by decide)⟩

/-- C8: constructing the rotation from the empty list fails on the
constructor's non-emptiness assertion; construction succeeds exactly when the
list is not empty, and a constructed rotation holds the given list, which has
at least one node. -/
theorem Nodes.construct_rejects_empty :
    Nodes.construct [] = none ∧
    (∀ l : List Node, (Nodes.construct l).isSome = true ↔ l ≠ []) ∧
    (∀ (l : List Node) (s : Nodes), Nodes.construct l = some s →
      s.nodes = l ∧ 0 < s.nodes.length) := by
  refine ⟨rfl, ?_, ?_⟩
  · intro l
    cases l with
    | nil => simp [Nodes.construct]
    | cons a t => simp [Nodes.construct]
  · intro l s hs
    cases l with
    | nil => simp [Nodes.construct] at hs
    | cons a t =>
      simp only [Nodes.construct, List.isEmpty_cons, Bool.false_eq_true, not_false_eq_true,
        if_true, Option.some.injEq] at hs
      subst hs
      exact ⟨rfl, Nat.succ_pos _⟩

/-- C10, as the claim states it, fails: right after construction from the two
nodes of `main` the cursor is 2, the past-the-end position, which is not an
index into the two-element sequence. -/
theorem Nodes.cursor_valid_index_counterexample :
    Nodes.construct mainNodes = some mainRotation ∧
    Nodes.Reachable mainNodes mainRotation ∧
    mainRotation.nodes.length = 2 ∧ mainRotation.iter = 2 ∧
    ¬ (mainRotation.iter < mainRotation.nodes.length) :=
  ⟨by decide, Nodes.Reachable.ctor _ (by decide), by decide, by decide, by decide⟩

/-- C10, amended: in every reachable state of a rotation built from `l` the
sequence is `l` and is not empty, and the cursor lies in `1 .. N`, where `N`
is the past-the-end position; the position `next` reads from (the cursor, or 0
when the cursor is past the end) is a valid index. -/
theorem Nodes.reachable_cursor_bound (l : List Node) (s : Nodes)
    (h : Nodes.Reachable l s) :
    s.nodes = l ∧ s.nodes ≠ [] ∧ 0 < s.iter ∧ s.iter ≤ s.nodes.length ∧
    (if s.iter ≠ s.nodes.length then s.iter else 0) < s.nodes.length := by
  obtain ⟨hnodes, hl, hpos, hle⟩ := Nodes.reachable_inv l s h
  rw [hnodes]
  refine ⟨rfl, hl, hpos, hle, ?_⟩
  have hlen : 0 < l.length := List.length_pos.mpr hl
  by_cases hc : s.iter = l.length
  · simp [hc, hlen]
  · simp only [ne_eq, hc, not_false_eq_true, if_true]
    exact lt_of_le_of_ne hle hc

/-- Witness of the amended C10 on the rotation of `main` after one call of
`next`. -/
theorem Nodes.reachable_cursor_bound_witness :
    Nodes.Reachable mainNodes mainRotation1 ∧
    (mainRotation1.nodes = mainNodes ∧ mainRotation1.nodes ≠ [] ∧ 0 < mainRotation1.iter ∧
      mainRotation1.iter ≤ mainRotation1.nodes.length ∧
      (if mainRotation1.iter ≠ mainRotation1.nodes.length then mainRotation1.iter else 0) <
        mainRotation1.nodes.length) :=
  have hr : Nodes.Reachable mainNodes mainRotation1 :=
    Nodes.Reachable.next mainRotation _ nodeB1 (Nodes.Reachable.ctor _ (by decide)) (by decide)
  ⟨hr, Nodes.reachable_cursor_bound mainNodes mainRotation1 hr⟩

/-! ## The relay threads: claims -/

/-- C3, as the claim states it, fails: on the first client's pipe the reads on
the backend socket return `[111, 107]` and `[1]` before the first failing call,
which is the write of `[1]` to the client socket. The thread `in_to_out` ends
on that exception with only `[111, 107]` written: the buffer `[1]` was read and
is lost, so the bytes written are not the bytes read. -/
theorem Connection.relay_write_failure_counterexample :
    ReadBeforeFailure connC1.inside connC1.outside [[111, 107], [1]] ∧
    (connC1.in_to_out [] []).ended = .raised (.Other 32) ∧
    (connC1.in_to_out [] []).conn.inside.rx = [.ok [2]] ∧
    (connC1.in_to_out [] []).conn.outside.sent = [[111, 107]] ∧
    (connC1.in_to_out [] []).conn.outside.sent ≠
      connC1.outside.sent ++ [[111, 107], [1]] ∧
    (connC1.in_to_out [] []).conn.outside.sent.flatten ≠
      connC1.outside.sent.flatten ++ [[111, 107], [1]].flatten := by
  have hrelay : relay connC1.inside connC1.outside =
      (.raised (.Other 32), { backendB1 with rx := [.ok [2]] },
        { clientC1 with tx := [], sent := [[111, 107]] }) := by
    simp [relay, Socket.read_some, Socket.write, connC1, backendB1, clientC1]
  have hrun : connC1.in_to_out [] [] =
      { conn := { outside := { clientC1 with tx := [], sent := [[111, 107]] },
                  inside := { backendB1 with rx := [.ok [2]] } },
        collection := [], cout := [], ended := .raised (.Other 32) } := by
    simp [Connection.in_to_out, hrelay]
  refine ⟨?_, ?_, ?_, ?_, ?_, ?_⟩
  · refine ⟨[.ok [2]], by decide, Or.inr ⟨by decide, ?_, ⟨.Other 32, rfl⟩⟩⟩
    intro i hi
    left
    have hi0 : i = 0 := by
      simp only [List.length_cons, List.length_nil] at hi
      omega
    subst hi0
    rfl
  · rw [hrun]
  · rw [hrun]
  · rw [hrun]
  · rw [hrun]
    decide
  · rw [hrun]
    decide

/-- C3, amended: when `cs` is the sequence of buffers the successive reads on
the client socket return before the first failing read or write, a buffer
whose own write is the failing call left out, the thread `out_to_in` leaves on
the backend socket exactly these buffers, unmodified and in the same order,
after what had been written before, so the bytes written are the bytes of
`cs`; the thread `in_to_out` does the same from the backend socket to the
client socket. -/
theorem Connection.relay_fidelity (c : Connection) (m : Connection.Collection)
    (cout : List String) (cs cs1 : List Buffer)
    (hout : Relays c.outside c.inside cs) (hin : Relays c.inside c.outside cs1) :
    (c.out_to_in m cout).conn.inside.sent = c.inside.sent ++ cs ∧
    (c.out_to_in m cout).conn.inside.sent.flatten = c.inside.sent.flatten ++ cs.flatten ∧
    (c.in_to_out m cout).conn.outside.sent = c.outside.sent ++ cs1 ∧
    (c.in_to_out m cout).conn.outside.sent.flatten = c.outside.sent.flatten ++ cs1.flatten := by
  have h1 : (c.out_to_in m cout).conn.inside.sent = c.inside.sent ++ cs := by
    rw [← relay_sent c.outside c.inside cs hout]
    unfold Connection.out_to_in
    split <;> simp_all
  have h2 : (c.in_to_out m cout).conn.outside.sent = c.outside.sent ++ cs1 := by
    rw [← relay_sent c.inside c.outside cs1 hin]
    unfold Connection.in_to_out
    split <;> simp_all
  refine ⟨h1, ?_, h2, ?_⟩
  · rw [h1, List.flatten_append]
  · rw [h2, List.flatten_append]

/-- Witness of the amended C3: the first client sends two buffers and closes; the backend
answers with three buffers, of which the second cannot be written back. -/
theorem Connection.relay_fidelity_witness :
    Relays connC1.outside connC1.inside [[104, 105], [33]] ∧
    Relays connC1.inside connC1.outside [[111, 107]] ∧
    ((connC1.out_to_in [] []).conn.inside.sent = connC1.inside.sent ++ [[104, 105], [33]] ∧
      (connC1.out_to_in [] []).conn.inside.sent.flatten =
        connC1.inside.sent.flatten ++ [[104, 105], [33]].flatten ∧
      (connC1.in_to_out [] []).conn.outside.sent = connC1.outside.sent ++ [[111, 107]] ∧
      (connC1.in_to_out [] []).conn.outside.sent.flatten =
        connC1.outside.sent.flatten ++ [[111, 107]].flatten) :=
  have hout : Relays connC1.outside connC1.inside [[104, 105], [33]] :=
    ⟨[.raise .ConnectionClosed], by decide, by intro i _; right; rfl,
      Or.inr (Or.inl ⟨.ConnectionClosed, [], rfl⟩)⟩
  have hin : Relays connC1.inside connC1.outside [[111, 107]] :=
    ⟨[.ok [1], .ok [2]], by decide,
      by
        intro i hi
        left
        have hi0 : i = 0 := by simpa using hi
        subst hi0
        rfl,
      Or.inr (Or.inr ⟨[1], [.ok [2]], .Other 32, rfl, rfl⟩)⟩
  ⟨hout, hin, Connection.relay_fidelity connC1 [] [] _ _ hout hin⟩

/-- Both relay threads hand back the map they were given: neither calls
`close`. -/
theorem Connection.relay_collection (c : Connection) (m : Connection.Collection)
    (cout : List String) :
    (c.out_to_in m cout).collection = m ∧ (c.in_to_out m cout).collection = m := by
  constructor
  · unfold Connection.out_to_in
    split <;> rfl
  · unfold Connection.in_to_out
    split <;> rfl

/-- C4, the code at the failing input: the pipe `closedConn` is registered
under its identity and its client has closed. The thread `out_to_in` prints
its message and ends by throwing `ConnectionClosed` again, and the map still
holds the pipe under the identity, whereas a call of `close` would have
cleared the entry. -/
theorem Connection.out_to_in_keeps_entry :
    (closedConn.out_to_in [(closedConn.id, some closedConn)] []).ended =
      .raised .ConnectionClosed ∧
    (closedConn.out_to_in [(closedConn.id, some closedConn)] []).cout =
      ["Connection closed in client_out"] ∧
    Connection.Collection.find
      (closedConn.out_to_in [(closedConn.id, some closedConn)] []).collection closedConn.id =
      some (some closedConn) ∧
    Connection.Collection.find
      (closedConn.close [(closedConn.id, some closedConn)]) closedConn.id = some none := by
  have hrelay : relay closedConn.outside closedConn.inside =
      (.raised .ConnectionClosed, { closedConn.outside with rx := [] }, closedConn.inside) :=
    relay_raise _ _ .ConnectionClosed [] rfl
  refine ⟨?_, ?_, ?_, by decide⟩
  · simp [Connection.out_to_in, hrelay]
  · simp [Connection.out_to_in, hrelay]
  · rw [(Connection.relay_collection closedConn _ _).1]
    decide

/-! ## The map of connections: claims -/

/-- C5, the code at the failing input: the pipe `closedConn` is registered
under its identity and `close` is called on it twice. The first call stores
the null pointer under the identity and thereby destroys the pipe; the second
call runs on the destroyed object and has no defined result. This is so for
every map that holds a pipe under the identity of the object; only on an
object the map does not hold do two calls leave what one call leaves. -/
theorem Connection.close_twice_use_after_free :
    Connection.closeThis (some closedConn) [(closedConn.id, some closedConn)] =
      some ([(closedConn.id, none)], none) ∧
    Connection.closeTwice (some closedConn) [(closedConn.id, some closedConn)] = none ∧
    (∀ (c c0 : Connection) (m : Connection.Collection),
      Connection.Collection.find m c.id = some (some c0) →
      Connection.closeThis (some c) m = some (c.close m, none) ∧
      Connection.closeTwice (some c) m = none) ∧
    (∀ (c : Connection) (m : Connection.Collection),
      (Connection.Collection.find m c.id).join = none →
      Connection.closeTwice (some c) m = some (c.close m, some c)) := by
  refine ⟨by decide, by decide, ?_, ?_⟩
  · intro c c0 m hm
    have h1 : Connection.closeThis (some c) m = some (c.close m, none) := by
      simp only [Connection.closeThis, hm]
    refine ⟨h1, ?_⟩
    unfold Connection.closeTwice
    rw [h1]
    rfl
  · intro c m hm
    have hfirst : Connection.closeThis (some c) m = some (c.close m, some c) := by
      cases hf : Connection.Collection.find m c.id with
      | none => simp only [Connection.closeThis, hf]
      | some v =>
        cases v with
        | none => simp only [Connection.closeThis, hf]
        | some c0 => simp [hf] at hm
    have hsecond : Connection.closeThis (some c) (c.close m) =
        some (c.close (c.close m), some c) := by
      simp only [Connection.closeThis, Connection.close_find_self]
    unfold Connection.closeTwice
    rw [hfirst]
    simp only [hsecond, Connection.close_close]

/-- C7, as the claim states it, fails: the map already holds an entry for the
end point of `clientC1`; a turn of the loop that accepts a client with this
end point ends without any exception, `emplace` answers `false`, and the map
is what it was. -/
theorem acceptor_duplicate_counterexample :
    Connection.Collection.find busyAcceptor.connections clientC1.peer = some (some connC1) ∧
    acceptorTurn busyAcceptor (.client clientC1 (.ok idleWire)) =
      some ({ busyAcceptor with
              nodes := mainRotation,
              launched := [connC1, { outside := clientC1,
                                     inside := { toWire := idleWire,
                                                 peer := { host := "localhost", port := "8091" },
                                                 sent := [] } }] }, none) ∧
    (busyAcceptor.connections.emplace clientC1.peer (some connC1Later)).2 = false := by
  decide

/-- C7, amended: registering a pipe under an identity that already has an
entry is silently ignored. In every acceptor state whose map has an entry for
the end point of the accepted client, the turn of the loop ends without an
exception, prints nothing and leaves the map unchanged; `emplace` answers
`false` for every pipe, and the answer is dropped. -/
theorem acceptor_duplicate_ignored (st : Acceptor) (l : List Node)
    (hr : Nodes.Reachable l st.nodes) (outside : Socket) (w : Wire)
    (hdup : (st.connections.find outside.peer).isSome = true) :
    (∃ st1, acceptorTurn st (.client outside (.ok w)) = some (st1, none) ∧
      st1.connections = st.connections ∧ st1.cout = st.cout) ∧
    (∀ p, st.connections.emplace outside.peer p = (st.connections, false)) := by
  obtain ⟨hnodes, hl, _, hle⟩ := Nodes.reachable_inv l st.nodes hr
  obtain ⟨n, inside, _, _, hturn⟩ := acceptorTurn_dialed st l hl hnodes hle outside w
  have hemp : ∀ p, st.connections.emplace outside.peer p = (st.connections, false) := by
    intro p
    simp [Connection.Collection.emplace, hdup]
  refine ⟨⟨_, hturn, ?_, rfl⟩, hemp⟩
  simp [hemp]

/-- Witness of the amended C7 on the acceptor that already holds the end point
of `clientC1`. -/
theorem acceptor_duplicate_ignored_witness :
    Nodes.Reachable mainNodes busyAcceptor.nodes ∧
    (busyAcceptor.connections.find clientC1.peer).isSome = true ∧
    ((∃ st1, acceptorTurn busyAcceptor (.client clientC1 (.ok idleWire)) = some (st1, none) ∧
        st1.connections = busyAcceptor.connections ∧ st1.cout = busyAcceptor.cout) ∧
      (∀ p, busyAcceptor.connections.emplace clientC1.peer p =
        (busyAcceptor.connections, false))) :=
  have hr : Nodes.Reachable mainNodes busyAcceptor.nodes :=
    Nodes.Reachable.next mainRotation _ nodeB1 (Nodes.Reachable.ctor _ (by decide)) (by decide)
  ⟨hr, by decide,
    acceptor_duplicate_ignored busyAcceptor mainNodes hr clientC1 idleWire (by decide)⟩

/-- C9, as the claim states it, fails: `closedConn` is registered and closes;
registering it again under its identity leaves the null pointer in the map,
whereas the same registration after the key has been removed registers the
pipe. -/
theorem Connection.close_then_emplace_counterexample :
    Connection.Collection.find
      ((closedConn.close [(closedConn.id, some closedConn)]).emplace closedConn.id
        (some closedConn)).1 closedConn.id = some none ∧
    Connection.Collection.find
      ((Connection.Collection.specRemove [(closedConn.id, some closedConn)]
        closedConn.id).emplace closedConn.id (some closedConn)).1 closedConn.id =
      some (some closedConn) := by
  decide

/-- C9, amended: `close` keeps the key with a null pointer. For looking up a
pipe this is the same as removing the key: under every identity the map after
`close` and the map after removal hold the same pipe, and none under the
closed identity. For a later registration it is not: `emplace` under the
closed identity finds the key and leaves the null pointer, so the pipe is not
registered, whereas after removal it is; the other identities agree. -/
theorem Connection.close_versus_remove (c : Connection) (m : Connection.Collection)
    (p : Connection) :
    (∀ k, (Connection.Collection.find (c.close m) k).join =
      (Connection.Collection.find (Connection.Collection.specRemove m c.id) k).join) ∧
    Connection.Collection.find ((c.close m).emplace c.id (some p)).1 c.id = some none ∧
    Connection.Collection.find
      ((Connection.Collection.specRemove m c.id).emplace c.id (some p)).1 c.id =
      some (some p) ∧
    (∀ k, k ≠ c.id →
      Connection.Collection.find ((c.close m).emplace c.id (some p)).1 k =
      Connection.Collection.find
        ((Connection.Collection.specRemove m c.id).emplace c.id (some p)).1 k) := by
  have hclose := Connection.close_find_self c m
  have hrem : Connection.Collection.find (Connection.Collection.specRemove m c.id) c.id =
      none := by
    rw [Connection.Collection.find_specRemove]
    simp
  have hemp1 : ((c.close m).emplace c.id (some p)).1 = c.close m := by
    simp [Connection.Collection.emplace, hclose]
  have hemp2 : ((Connection.Collection.specRemove m c.id).emplace c.id (some p)).1 =
      Connection.Collection.specRemove m c.id ++ [(c.id, some p)] := by
    simp [Connection.Collection.emplace, hrem]
  refine ⟨?_, ?_, ?_, ?_⟩
  · intro k
    by_cases hk : k = c.id
    · subst hk
      rw [hclose, hrem]
      rfl
    · rw [Connection.close_find_other c m k hk, Connection.Collection.find_specRemove]
      simp [hk]
  · rw [hemp1]
    exact hclose
  · rw [hemp2, Connection.Collection.find_append, hrem]
    simp
  · intro k hk
    have hk2 : ¬ c.id = k := fun e => hk e.symm
    rw [hemp1, hemp2, Connection.Collection.find_append, Connection.close_find_other c m k hk,
      Connection.Collection.find_specRemove]
    simp only [hk, if_false, hk2]
    cases Connection.Collection.find m k <;> rfl

/-! ## The acceptor loop: claims -/

/-- C2: when every accept and every dial succeeds, the loop started on a
rotation freshly constructed from a non-empty list `l` of `N` nodes stays in
the loop, constructs one connection per accepted client, the `i`-th of them
(counting from 0) pairing the `i`-th client with a socket to `l[i mod N]`, and
leaves the rotation in the state that as many calls of `next` as there are
clients leave. With the two nodes of `main` and three clients, the first
client is paired with `localhost:8090`, the second with `localhost:8091` and
the third with `localhost:8090`. -/
theorem acceptor_round_robin (l : List Node) (hl : l ≠ []) (clients : List (Socket × Wire)) :
    (∃ s st1, Nodes.construct l = some s ∧
      acceptorLoop (acceptorStart s)
        (clients.map fun c => Event.client c.1 (Outcome.ok c.2)) = some (st1, .suspended) ∧
      st1.launched.length = clients.length ∧
      (∀ i, i < clients.length → ∃ c n conn, clients[i]? = some c ∧
        l[i % l.length]? = some n ∧ st1.launched[i]? = some conn ∧
        conn.outside = c.1 ∧ n.connect (.ok c.2) = .ok conn.inside) ∧
      (∃ rs, s.calls clients.length = some (rs, st1.nodes))) ∧
    (∀ c1 c2 c3 : Socket × Wire, ∃ s st1, Nodes.construct mainNodes = some s ∧
      acceptorLoop (acceptorStart s)
        [.client c1.1 (.ok c1.2), .client c2.1 (.ok c2.2), .client c3.1 (.ok c3.2)] =
        some (st1, .suspended) ∧
      st1.launched.map (fun conn => (conn.outside, conn.inside.peer)) =
        [(c1.1, { host := "localhost", port := "8090" }),
         (c2.1, { host := "localhost", port := "8091" }),
         (c3.1, { host := "localhost", port := "8090" })]) := by
  constructor
  · obtain ⟨st1, news, hloop, hlaunched, hlen, hnews, hcalls, _⟩ :=
      acceptorLoop_clients l hl clients (acceptorStart { nodes := l, iter := l.length })
        rfl (le_refl _)
    refine ⟨_, st1, Nodes.construct_eq l hl, hloop, ?_, ?_, hcalls⟩
    · rw [hlaunched]
      simp [acceptorStart, hlen]
    · intro i hi
      obtain ⟨c, n, conn, h1, h2, h3, h4, h5⟩ := hnews i hi
      refine ⟨c, n, conn, h1, ?_, ?_, h4, h5⟩
      · simpa [acceptorStart] using h2
      · rw [hlaunched]
        simpa [acceptorStart] using h3
  · intro c1 c2 c3
    exact ⟨mainRotation, _, by decide, rfl, rfl⟩

/-- Witness of C2: the two nodes of `main` and the three sample clients. -/
theorem acceptor_round_robin_witness :
    mainNodes ≠ [] ∧
    ((∃ s st1, Nodes.construct mainNodes = some s ∧
      acceptorLoop (acceptorStart s)
        ([(clientC1, idleWire), (clientC2, idleWire), (clientC3, idleWire)].map
          fun c => Event.client c.1 (Outcome.ok c.2)) = some (st1, .suspended) ∧
      st1.launched.length = [(clientC1, idleWire), (clientC2, idleWire), (clientC3, idleWire)].length ∧
      (∀ i, i < [(clientC1, idleWire), (clientC2, idleWire), (clientC3, idleWire)].length →
        ∃ c n conn, [(clientC1, idleWire), (clientC2, idleWire), (clientC3, idleWire)][i]? = some c ∧
        mainNodes[i % mainNodes.length]? = some n ∧ st1.launched[i]? = some conn ∧
        conn.outside = c.1 ∧ n.connect (.ok c.2) = .ok conn.inside) ∧
      (∃ rs, s.calls [(clientC1, idleWire), (clientC2, idleWire), (clientC3, idleWire)].length =
        some (rs, st1.nodes))) ∧
    (∀ c1 c2 c3 : Socket × Wire, ∃ s st1, Nodes.construct mainNodes = some s ∧
      acceptorLoop (acceptorStart s)
        [.client c1.1 (.ok c1.2), .client c2.1 (.ok c2.2), .client c3.1 (.ok c3.2)] =
        some (st1, .suspended) ∧
      st1.launched.map (fun conn => (conn.outside, conn.inside.peer)) =
        [(c1.1, { host := "localhost", port := "8090" }),
         (c2.1, { host := "localhost", port := "8091" }),
         (c3.1, { host := "localhost", port := "8090" })])) :=
  ⟨by decide, acceptor_round_robin mainNodes (by decide) _⟩

/-- C6, as the claim states it, fails: the dial for the first client is
refused with an exception that is not `ConnectionClosed`; the exception leaves
the loop, and the second client is never accepted. -/
theorem acceptor_dial_error_counterexample :
    acceptorLoop (acceptorStart mainRotation)
      [.client clientC1 (.raise (.Other 111)), .client clientC2 (.ok idleWire)] =
      some ({ acceptorStart mainRotation with nodes := mainRotation1 }, .raised (.Other 111)) := by
  decide

/-- C6, amended: in every acceptor state, when the dial for an accepted
client fails with `ConnectionClosed`, the handler of the loop catches it and
prints its message, the loop goes on to the next accept, and the next
accepted client is paired with the node that follows the failed one in the
rotation. -/
theorem acceptor_survives_closed_dial (st : Acceptor) (l : List Node)
    (hr : Nodes.Reachable l st.nodes) (o1 o2 : Socket) (w : Wire) :
    ∃ n1 s1 n2 s2 inside st1 st2,
      st.nodes.next = some (n1, s1) ∧ s1.next = some (n2, s2) ∧
      l[st.nodes.iter % l.length]? = some n1 ∧
      l[(st.nodes.iter % l.length + 1) % l.length]? = some n2 ∧
      acceptorTurn st (.client o1 (.raise .ConnectionClosed)) = some (st1, none) ∧
      st1.nodes = s1 ∧ st1.launched = st.launched ∧
      st1.cout = st.cout ++ ["Connection closed"] ∧
      n2.connect (.ok w) = .ok inside ∧
      acceptorLoop st [.client o1 (.raise .ConnectionClosed), .client o2 (.ok w)] =
        some (st2, .suspended) ∧
      st2.nodes = s2 ∧
      st2.launched = st.launched ++ [{ outside := o2, inside := inside }] := by
  obtain ⟨hnodes, hl, _, hle⟩ := Nodes.reachable_inv l st.nodes hr
  have hpos : 0 < l.length := List.length_pos.mpr hl
  have hst : st.nodes = { nodes := l, iter := st.nodes.iter } := by
    rw [← hnodes]
  obtain ⟨n1, hn1, hnext1⟩ := Nodes.next_eq l st.nodes.iter hl hle
  have hle1 : st.nodes.iter % l.length + 1 ≤ l.length := Nat.mod_lt _ hpos
  obtain ⟨n2, hn2, hnext2⟩ := Nodes.next_eq l (st.nodes.iter % l.length + 1) hl hle1
  have htry := acceptorTurn_dial_raises st l hl hnodes hle o1 .ConnectionClosed
  have hturn1 : acceptorTurn st (.client o1 (.raise .ConnectionClosed)) =
      some ({ st with
              nodes := { nodes := l, iter := st.nodes.iter % l.length + 1 },
              cout := st.cout ++ ["Connection closed"] }, none) := by
    simp [acceptorTurn, htry]
  obtain ⟨n2b, inside, hn2b, hconn, hturn2⟩ :=
    acceptorTurn_dialed
      { st with
        nodes := { nodes := l, iter := st.nodes.iter % l.length + 1 },
        cout := st.cout ++ ["Connection closed"] } l hl rfl hle1 o2 w
  have hsame : n2b = n2 := by
    simp only at hn2b
    rw [hn2] at hn2b
    exact (Option.some.inj hn2b).symm
  subst hsame
  have hloop : acceptorLoop st [.client o1 (.raise .ConnectionClosed), .client o2 (.ok w)] =
      some ({ st with
              nodes := { nodes := l, iter := (st.nodes.iter % l.length + 1) % l.length + 1 },
              cout := st.cout ++ ["Connection closed"],
              launched := st.launched ++ [{ outside := o2, inside := inside }],
              connections :=
                (st.connections.emplace o2.peer
                  (some { outside := o2, inside := inside })).1 }, .suspended) := by
    simp only [acceptorLoop, hturn1, hturn2]
  have hfirst : st.nodes.next =
      some (n1, { nodes := l, iter := st.nodes.iter % l.length + 1 }) := by
    rw [hst]
    exact hnext1
  exact ⟨n1, _, n2b, _, inside, _, _, hfirst, hnext2, hn1, hn2, hturn1, rfl, rfl, rfl, hconn,
    hloop, rfl, rfl⟩

/-- Witness of the amended C6 on the acceptor of `main` at its start. -/
theorem acceptor_survives_closed_dial_witness :
    Nodes.Reachable mainNodes (acceptorStart mainRotation).nodes ∧
    ∃ n1 s1 n2 s2 inside st1 st2,
      (acceptorStart mainRotation).nodes.next = some (n1, s1) ∧ s1.next = some (n2, s2) ∧
      mainNodes[(acceptorStart mainRotation).nodes.iter % mainNodes.length]? = some n1 ∧
      mainNodes[((acceptorStart mainRotation).nodes.iter % mainNodes.length + 1) %
        mainNodes.length]? = some n2 ∧
      acceptorTurn (acceptorStart mainRotation) (.client clientC1 (.raise .ConnectionClosed)) =
        some (st1, none) ∧
      st1.nodes = s1 ∧ st1.launched = (acceptorStart mainRotation).launched ∧
      st1.cout = (acceptorStart mainRotation).cout ++ ["Connection closed"] ∧
      n2.connect (.ok idleWire) = .ok inside ∧
      acceptorLoop (acceptorStart mainRotation)
        [.client clientC1 (.raise .ConnectionClosed), .client clientC2 (.ok idleWire)] =
        some (st2, .suspended) ∧
      st2.nodes = s2 ∧
      st2.launched = (acceptorStart mainRotation).launched ++
        [{ outside := clientC2, inside := inside }] :=
  have hr : Nodes.Reachable mainNodes (acceptorStart mainRotation).nodes :=
    Nodes.Reachable.ctor _ (by decide)
  ⟨hr, acceptor_survives_closed_dial (acceptorStart mainRotation) mainNodes hr
    clientC1 clientC2 idleWire⟩
